import Mathlib

/-!
Verification of the SIA call-host queue against its sources.

The repository ships a SQL schema (queue table, `get_next_queue_position`),
a React frontend (Queue page, QueueNotification popup, Meeting page) and a
WebSocket client with reconnection logic.  The HTTP backend itself is not in
the sources; where a claim depends on it, the corresponding operation is
modelled from the spec and marked as such in its doc comment.  Everything
else is embedded directly from the source files.
-/

namespace Sia

/-- Status values of the `queue.status` column:
'waiting', 'accepted', 'declined', 'expired'. -/
inductive QStatus
  | waiting
  | accepted
  | declined
  | expired
deriving DecidableEq

/-- A row of the `queue` table from the schema:
id, participant_id, room_id, requested_at, position (INTEGER), status,
accepted_at (nullable timestamp).  Identifiers and timestamps are abstracted
as naturals. -/
structure QueueEntry where
  id : Nat
  participant_id : Nat
  room_id : Nat
  requested_at : Nat
  position : Int
  status : QStatus
  accepted_at : Option Nat
deriving DecidableEq

/-- The queue table: rows in insertion order. -/
abbrev QueueDB := List QueueEntry

/-- The WHERE clause of `get_next_queue_position`:
`room_id = p_room_id AND status = 'waiting'`. -/
def isWaitingIn (roomId : Nat) (e : QueueEntry) : Bool :=
  e.room_id == roomId && e.status == QStatus.waiting

/-- The positions of the waiting rows of a room, in table order. -/
def waitingPositions (db : QueueDB) (roomId : Nat) : List Int :=
  (db.filter (isWaitingIn roomId)).map (fun e => e.position)

/-- Embedded from the schema function `get_next_queue_position(p_room_id)`:
`SELECT COALESCE(MAX(position), 0) INTO max_position FROM queue WHERE
room_id = p_room_id AND status = 'waiting'; RETURN max_position + 1;`. -/
def get_next_queue_position (db : QueueDB) (p_room_id : Nat) : Int :=
  (waitingPositions db p_room_id).foldr max 0 + 1

/-- Error taxonomy of the spec (the kinds a queue operation can fail with). -/
inductive QueueError
  | AlreadyQueued
  | AlreadyResolved
  | NotFound
deriving DecidableEq

/-- Whether `participantId` already has a 'waiting' row in `roomId`. -/
def hasWaitingEntry (db : QueueDB) (roomId participantId : Nat) : Bool :=
  db.any fun e =>
    e.room_id == roomId && e.participant_id == participantId &&
      e.status == QStatus.waiting

/-- Modelled from the spec: the backend endpoint behind
`queueAPI.callHost` (POST /api/queue/call-host) is not in the repository
sources.  Per the spec it fails with `AlreadyQueued` if the participant
already has a `waiting` entry in that room, and otherwise inserts a row with
status 'waiting' whose position is computed by `get_next_queue_position`
(which is embedded above from the schema in the sources), returning the
position. -/
def requestCallHost (db : QueueDB) (newId roomId participantId now : Nat) :
    Except QueueError (QueueDB × Int) :=
  if hasWaitingEntry db roomId participantId then
    Except.error QueueError.AlreadyQueued
  else
    let pos := get_next_queue_position db roomId
    Except.ok
      (db ++ [⟨newId, participantId, roomId, now, pos, QStatus.waiting, none⟩],
       pos)

/-- The three ways a waiting entry can be resolved. -/
inductive Resolution
  | accept
  | decline
  | expire
deriving DecidableEq

/-- The terminal status a resolution drives the entry to. -/
def Resolution.targetStatus : Resolution → QStatus
  | Resolution.accept => QStatus.accepted
  | Resolution.decline => QStatus.declined
  | Resolution.expire => QStatus.expired

/-- The row update a successful resolution performs: status becomes the
terminal status; `accepted_at` is set exactly on accept. -/
def applyResolution (r : Resolution) (now : Nat) (e : QueueEntry) : QueueEntry :=
  { e with
    status := r.targetStatus
    accepted_at := if r == Resolution.accept then some now else e.accepted_at }

/-- Modelled from the spec: the backend endpoints behind
`queueAPI.acceptRequest` / `queueAPI.declineRequest` and the expiry path are
not in the repository sources.  Per the spec, resolution is a
compare-and-swap keyed by entry id: read the current status, apply the
transition only if it is still `waiting`, otherwise fail with
`AlreadyResolved` (`NotFound` when the id is absent). -/
def resolveEntry (db : QueueDB) (entryId : Nat) (r : Resolution) (now : Nat) :
    Except QueueError QueueDB :=
  match db.find? (fun e => e.id == entryId) with
  | none => Except.error QueueError.NotFound
  | some e =>
    if e.status == QStatus.waiting then
      Except.ok
        (db.map fun x => if x.id == entryId then applyResolution r now x else x)
    else
      Except.error QueueError.AlreadyResolved

/-- A serialized sequence of resolution attempts against one entry (the
spec's per-room single-writer serialization), returning the final table and
the outcome of each attempt in order. -/
def runResolutions (entryId now : Nat) (rs : List Resolution) (db : QueueDB) :
    QueueDB × List (Except QueueError Resolution) :=
  match rs with
  | [] => (db, [])
  | r :: rest =>
    match resolveEntry db entryId r now with
    | Except.ok db2 =>
      let out := runResolutions entryId now rest db2
      (out.1, Except.ok r :: out.2)
    | Except.error err =>
      let out := runResolutions entryId now rest db
      (out.1, Except.error err :: out.2)

/-- Look an entry up by id (spec round-trip / audit access). -/
def getEntryById (db : QueueDB) (entryId : Nat) : Option QueueEntry :=
  db.find? (fun e => e.id == entryId)

/-- Embedded from the schema: `queue.room_id` references `rooms(id)`
`ON DELETE CASCADE`, so deleting a room deletes its queue rows. -/
def deleteRoomCascade (db : QueueDB) (roomId : Nat) : QueueDB :=
  db.filter fun e => e.room_id != roomId

/-- Embedded from the schema: `queue.participant_id` references
`participants(id)` `ON DELETE CASCADE`. -/
def deleteParticipantCascade (db : QueueDB) (participantId : Nat) : QueueDB :=
  db.filter fun e => e.participant_id != participantId

/-! ### WebSocket client (embedded from the websocket utility in the sources) -/

/-- The browser WebSocket ready states used by the client code. -/
inductive ReadyState
  | CONNECTING
  | OPEN
  | CLOSING
  | CLOSED
deriving DecidableEq

/-- State of a `WebSocketClient` instance: the underlying socket (if any),
the `shouldReconnect` flag, the reconnect attempt counter, and — for
observing effects — the list of payloads actually written to the socket. -/
structure WebSocketClientState where
  ws : Option ReadyState
  shouldReconnect : Bool
  reconnectAttempts : Nat
  sent : List String
deriving DecidableEq

/-- `this.maxReconnectAttempts = 5` in the client constructor. -/
def maxReconnectAttempts : Nat := 5

/-- `this.reconnectDelay = 1000` in the client constructor. -/
def reconnectBaseDelay : Nat := 1000

/-- The delay scheduled before reconnect attempt number `attempt`:
`Math.min(this.reconnectDelay * Math.pow(2, this.reconnectAttempts - 1), 30000)`,
evaluated after `this.reconnectAttempts++`. -/
def reconnectDelayFor (attempt : Nat) : Nat :=
  min (reconnectBaseDelay * 2 ^ (attempt - 1)) 30000

/-- The guard in the `onclose` handler:
`this.shouldReconnect && this.reconnectAttempts < this.maxReconnectAttempts && event.code !== 1000`. -/
def willReconnect (s : WebSocketClientState) (closeCode : Nat) : Bool :=
  s.shouldReconnect && decide (s.reconnectAttempts < maxReconnectAttempts) &&
    closeCode != 1000

/-- `send(data)`: writes to the socket only when
`this.ws && this.ws.readyState === WebSocket.OPEN`; otherwise it only logs a
warning and returns, leaving all state unchanged. -/
def WebSocketClientState.send (s : WebSocketClientState) (data : String) :
    WebSocketClientState :=
  match s.ws with
  | some ReadyState.OPEN => { s with sent := s.sent ++ [data] }
  | _ => s

/-- `disconnect()`: sets `shouldReconnect = false`, closes the socket with
code 1000 and clears `this.ws`. -/
def WebSocketClientState.disconnect (s : WebSocketClientState) :
    WebSocketClientState :=
  { s with shouldReconnect := false, ws := none }

/-! ### Host queue page (embedded from the Queue page in the sources) -/

/-- The fields of a queue item the page logic inspects: its id and its
stored `position` column. -/
structure QueueItem where
  id : Nat
  position : Int
deriving DecidableEq

/-- A message arriving on the host WebSocket, as destructured by the page:
`message.type`, `message.action`, `message.queue_item`. -/
structure HostWsMessage where
  type : String
  action : String
  queue_item : Option QueueItem
deriving DecidableEq

/-- Observable state of the Queue page: how many times `loadQueue()` (the
GET of the current queue) has been issued, and the current notification. -/
structure QueuePageState where
  fetchCount : Nat
  popupItem : Option QueueItem
deriving DecidableEq

/-- Events delivered to the host WebSocket client created by the page. -/
inductive HostSocketEvent
  | opened
  | message (m : HostWsMessage)
  | closed
deriving DecidableEq

/-- The page's message callback: on `type === 'queue_update'` it calls
`loadQueue()` and, when `action === 'new'` with a `queue_item`, sets the
notification; any other message leaves the page alone. -/
def handleHostMessage (s : QueuePageState) (m : HostWsMessage) : QueuePageState :=
  if m.type == "queue_update" then
    { fetchCount := s.fetchCount + 1
      popupItem :=
        if m.action == "new" && m.queue_item.isSome then m.queue_item
        else s.popupItem }
  else s

/-- The host socket callbacks wired by the page: `onOpen` and `onClose`
only `console.log`; only `onMessage` touches page state. -/
def handleHostEvent (s : QueuePageState) : HostSocketEvent → QueuePageState
  | HostSocketEvent.opened => s
  | HostSocketEvent.message m => handleHostMessage s m
  | HostSocketEvent.closed => s

/-- The render guard of the notification popup on the Queue page:
`notification && notification.position === 1 && <QueueNotification …/>`. -/
def queuePopupRendered (popupItem : Option QueueItem) : Bool :=
  match popupItem with
  | none => false
  | some item => item.position == 1

/-! ### QueueNotification popup (embedded from its component in the sources) -/

/-- One tick of the popup countdown interval:
`prev <= 1 ? 0 : prev - 1` (clearing the interval at 0). -/
def countdownTick (prev : Int) : Int :=
  if prev ≤ 1 then 0 else prev - 1

/-- The countdown value after `n` ticks, starting from
`useState(30)`. -/
def countdownAfter : Nat → Int
  | 0 => 30
  | n + 1 => countdownTick (countdownAfter n)

/-- The `disabled` attribute shared by the Accept and Decline buttons:
`processing || countdown === 0`. -/
def popupButtonsDisabled (processing : Bool) (countdown : Int) : Bool :=
  processing || countdown == 0

/-- A click on Accept or Decline reaches the API only when the button is
not disabled. -/
def popupCanIssueRequest (processing : Bool) (countdown : Int) : Bool :=
  !popupButtonsDisabled processing countdown

/-- The message type the Queue page reacts to. -/
def queueUpdateType : String := "queue_update"

/-- The action value that carries a new queue item. -/
def newAction : String := "new"

/-- The payload sent by the client's `ping()` helper. -/
def pingPayload : String := "ping"

/-! ### listWaiting (spec-modelled host queue read) -/

/-- Comparison of queue rows by their stored position column. -/
def entryPosLE (a b : QueueEntry) : Prop :=
  a.position ≤ b.position

instance : DecidableRel entryPosLE :=
  fun a b => inferInstanceAs (Decidable (a.position ≤ b.position))

instance : IsTotal QueueEntry entryPosLE :=
  ⟨fun a b => Int.le_total a.position b.position⟩

instance : IsTrans QueueEntry entryPosLE :=
  ⟨fun _ _ _ hab hbc => le_trans hab hbc⟩

/-- Modelled from the spec: the backend behind `dashboardAPI.getQueue`
(`listWaiting(roomId)`) is not in the repository sources.  Per the spec it
returns all `waiting` entries of the room sorted ascending by `position`. -/
def listWaiting (db : QueueDB) (roomId : Nat) : QueueDB :=
  List.insertionSort entryPosLE (db.filter (isWaitingIn roomId))

/-- Spec data-model invariant: no participant has two `waiting` entries in
the same room. -/
def NoDupWaiting (db : QueueDB) : Prop :=
  List.Pairwise
    (fun a b =>
      ¬(a.status = QStatus.waiting ∧ b.status = QStatus.waiting ∧
        a.room_id = b.room_id ∧ a.participant_id = b.participant_id))
    db

/-- The row function a successful resolution maps over the table. -/
def resolveRow (entryId : Nat) (r : Resolution) (now : Nat)
    (x : QueueEntry) : QueueEntry :=
  if x.id == entryId then applyResolution r now x else x

/-- Success observable of a resolution attempt. -/
def outcomeIsSuccess : Except QueueError Resolution → Bool
  | Except.ok _ => true
  | Except.error _ => false

/-! ### Helper lemmas -/

theorem foldrMax_nonneg (l : List Int) : 0 ≤ l.foldr max 0 := by
  induction l with
  | nil => exact le_refl 0
  | cons x l ih => exact le_trans ih (le_max_right x _)

theorem le_foldrMax {l : List Int} {x : Int} (h : x ∈ l) : x ≤ l.foldr max 0 := by
  induction l with
  | nil => cases h
  | cons y l ih =>
    rcases List.mem_cons.mp h with rfl | h2
    · exact le_max_left x _
    · exact le_trans (ih h2) (le_max_right y _)

theorem foldrMax_init {b : Int} (hb : 0 ≤ b) (l : List Int) :
    l.foldr max b = max (l.foldr max 0) b := by
  induction l with
  | nil => simp [max_eq_right hb]
  | cons x l ih => rw [List.foldr_cons, ih, List.foldr_cons, max_assoc]

theorem foldrMax_append_singleton (l : List Int) {p : Int} (hp : 0 ≤ p) :
    (l ++ [p]).foldr max 0 = max (l.foldr max 0) p := by
  rw [List.foldr_append, List.foldr_cons, List.foldr_nil, max_eq_left hp,
    foldrMax_init hp]

theorem foldrMax_mem_or_zero (l : List Int) :
    l.foldr max 0 ∈ l ∨ l.foldr max 0 = 0 := by
  induction l with
  | nil => exact Or.inr rfl
  | cons x l ih =>
    rw [List.foldr_cons]
    rcases le_total x (l.foldr max 0) with h | h
    · rw [max_eq_right h]
      rcases ih with hm | hz
      · exact Or.inl (List.mem_cons_of_mem x hm)
      · exact Or.inr hz
    · rw [max_eq_left h]
      exact Or.inl (List.mem_cons_self x l)

theorem get_next_queue_position_pos (db : QueueDB) (roomId : Nat) :
    1 ≤ get_next_queue_position db roomId := by
  have := foldrMax_nonneg (waitingPositions db roomId)
  unfold get_next_queue_position
  omega

theorem mem_waitingPositions {db : QueueDB} {roomId : Nat} {e : QueueEntry}
    (he : e ∈ db) (hw : isWaitingIn roomId e = true) :
    e.position ∈ waitingPositions db roomId := by
  exact List.mem_map_of_mem _ (List.mem_filter.mpr ⟨he, hw⟩)

theorem position_lt_next {db : QueueDB} {roomId : Nat} {e : QueueEntry}
    (he : e ∈ db) (hw : isWaitingIn roomId e = true) :
    e.position < get_next_queue_position db roomId := by
  have h := le_foldrMax (mem_waitingPositions he hw)
  unfold get_next_queue_position
  omega

theorem requestCallHost_ok_inv {db : QueueDB} {newId roomId pid now : Nat}
    {db' : QueueDB} {pos : Int}
    (h : requestCallHost db newId roomId pid now = Except.ok (db', pos)) :
    hasWaitingEntry db roomId pid = false ∧
      pos = get_next_queue_position db roomId ∧
      db' = db ++
        [⟨newId, pid, roomId, now, get_next_queue_position db roomId,
          QStatus.waiting, none⟩] := by
  unfold requestCallHost at h
  split at h
  · cases h
  · rename_i hq
    have hpair := Except.ok.inj h
    have hdb : db ++ [⟨newId, pid, roomId, now,
        get_next_queue_position db roomId, QStatus.waiting, none⟩] = db' :=
      congrArg Prod.fst hpair
    have hpos : get_next_queue_position db roomId = pos :=
      congrArg Prod.snd hpair
    exact ⟨Bool.not_eq_true _ ▸ (by simpa using hq), hpos.symm, hdb.symm⟩

theorem waitingPositions_append (db1 db2 : QueueDB) (roomId : Nat) :
    waitingPositions (db1 ++ db2) roomId =
      waitingPositions db1 roomId ++ waitingPositions db2 roomId := by
  unfold waitingPositions
  rw [List.filter_append, List.map_append]

theorem applyResolution_id (r : Resolution) (now : Nat) (e : QueueEntry) :
    (applyResolution r now e).id = e.id := rfl

theorem applyResolution_position (r : Resolution) (now : Nat) (e : QueueEntry) :
    (applyResolution r now e).position = e.position := rfl

theorem applyResolution_status (r : Resolution) (now : Nat) (e : QueueEntry) :
    (applyResolution r now e).status = r.targetStatus := rfl

theorem targetStatus_ne_waiting (r : Resolution) :
    r.targetStatus ≠ QStatus.waiting := by
  cases r <;> simp [Resolution.targetStatus]

theorem resolveRow_id (entryId : Nat) (r : Resolution) (now : Nat)
    (x : QueueEntry) : (resolveRow entryId r now x).id = x.id := by
  unfold resolveRow
  split <;> rfl

theorem resolveRow_position (entryId : Nat) (r : Resolution) (now : Nat)
    (x : QueueEntry) : (resolveRow entryId r now x).position = x.position := by
  unfold resolveRow
  split <;> rfl

theorem resolveRow_of_ne {entryId : Nat} (r : Resolution) (now : Nat)
    {x : QueueEntry} (hx : x.id ≠ entryId) : resolveRow entryId r now x = x := by
  unfold resolveRow
  rw [if_neg (by simpa using hx)]

theorem resolveEntry_ok_inv {db : QueueDB} {entryId : Nat} {r : Resolution}
    {now : Nat} {db' : QueueDB}
    (h : resolveEntry db entryId r now = Except.ok db') :
    ∃ e, getEntryById db entryId = some e ∧ e.status = QStatus.waiting ∧
      db' = db.map (resolveRow entryId r now) := by
  unfold resolveEntry at h
  split at h
  · cases h
  · rename_i e hfind
    split at h
    · rename_i hw
      exact ⟨e, hfind, by simpa using hw, (Except.ok.inj h).symm⟩
    · cases h

theorem resolveEntry_of_waiting {db : QueueDB} {entryId : Nat} {e : QueueEntry}
    (hfind : getEntryById db entryId = some e)
    (hw : e.status = QStatus.waiting) (r : Resolution) (now : Nat) :
    resolveEntry db entryId r now =
      Except.ok (db.map (resolveRow entryId r now)) := by
  unfold resolveEntry
  unfold getEntryById at hfind
  split
  · rename_i hn
    rw [hn] at hfind
    cases hfind
  · rename_i e2 hs
    rw [hs] at hfind
    cases Option.some.inj hfind
    rw [if_pos (by simpa using hw)]
    rfl

theorem resolveEntry_of_resolved {db : QueueDB} {entryId : Nat} {e : QueueEntry}
    (hfind : getEntryById db entryId = some e)
    (hw : e.status ≠ QStatus.waiting) (r : Resolution) (now : Nat) :
    resolveEntry db entryId r now = Except.error QueueError.AlreadyResolved := by
  unfold resolveEntry
  unfold getEntryById at hfind
  split
  · rename_i hn
    rw [hn] at hfind
    cases hfind
  · rename_i e2 hs
    rw [hs] at hfind
    cases Option.some.inj hfind
    rw [if_neg (by simpa using hw)]

theorem getEntryById_map_resolveRow (db : QueueDB) (entryId : Nat)
    (r : Resolution) (now : Nat) :
    getEntryById (db.map (resolveRow entryId r now)) entryId =
      (getEntryById db entryId).map (resolveRow entryId r now) := by
  unfold getEntryById
  rw [List.find?_map]
  have hp : ((fun e : QueueEntry => e.id == entryId) ∘ resolveRow entryId r now) =
      fun e : QueueEntry => e.id == entryId := by
    funext x
    simp [Function.comp_apply, resolveRow_id]
  rw [hp]

theorem runResolutions_all_resolved {db : QueueDB} {entryId : Nat}
    {e : QueueEntry} (now : Nat) (rs : List Resolution)
    (hfind : getEntryById db entryId = some e)
    (hw : e.status ≠ QStatus.waiting) :
    runResolutions entryId now rs db =
      (db, rs.map fun _ => Except.error QueueError.AlreadyResolved) := by
  induction rs with
  | nil => rfl
  | cons r rest ih =>
    unfold runResolutions
    rw [resolveEntry_of_resolved hfind hw r now]
    simp [ih]

theorem gnp_eq_one_of_no_waiting {db : QueueDB} {roomId : Nat}
    (hnone : ∀ e ∈ db, isWaitingIn roomId e = false) :
    get_next_queue_position db roomId = 1 := by
  unfold get_next_queue_position waitingPositions
  rw [List.filter_eq_nil_iff.mpr (by
    intro a ha
    simp [hnone a ha])]
  rfl

theorem gnp_attained (db : QueueDB) (roomId : Nat) :
    get_next_queue_position db roomId = 1 ∨
      ∃ e ∈ db, isWaitingIn roomId e = true ∧
        e.position = get_next_queue_position db roomId - 1 := by
  rcases foldrMax_mem_or_zero (waitingPositions db roomId) with hm | hz
  · right
    obtain ⟨e, hef, hpe⟩ := List.mem_map.mp hm
    obtain ⟨he, hw⟩ := List.mem_filter.mp hef
    refine ⟨e, he, hw, ?_⟩
    unfold get_next_queue_position
    omega
  · left
    unfold get_next_queue_position
    omega

theorem noDupWaiting_append {db : QueueDB} {roomId pid : Nat}
    {e_new : QueueEntry} (hq : hasWaitingEntry db roomId pid = false)
    (hroom : e_new.room_id = roomId) (hpid : e_new.participant_id = pid)
    (hd : NoDupWaiting db) : NoDupWaiting (db ++ [e_new]) := by
  unfold NoDupWaiting
  rw [List.pairwise_append]
  refine ⟨hd, List.pairwise_singleton _ _, ?_⟩
  intro a ha b hb
  rw [List.mem_singleton.mp hb]
  rintro ⟨haw, -, hroom2, hpid2⟩
  have hmem : hasWaitingEntry db roomId pid = true := by
    unfold hasWaitingEntry
    rw [List.any_eq_true]
    refine ⟨a, ha, ?_⟩
    rw [hroom] at hroom2
    rw [hpid] at hpid2
    simp [hroom2, hpid2, haw]
  simp [hmem] at hq

/-! ### Claim theorems -/

/-- C1 (amended): every position returned by `requestCallHost` is at least 1
and strictly greater than the position of every entry currently `waiting` in
that room (so positions are unique among waiting entries); two consecutive
requests on the same room with no resolution in between return positions
`p` and `p + 1`; and a request into a room with no waiting entry returns
position 1.  The original claim's "a position number is never reused after
the entry that held it leaves the waiting state" fails on the code, because
`get_next_queue_position` maximises over `waiting` rows only (see the
counterexample). -/
theorem c1_positions_amended :
    (∀ (db : QueueDB) (newId roomId pid now : Nat) (db' : QueueDB) (pos : Int),
      requestCallHost db newId roomId pid now = Except.ok (db', pos) →
        1 ≤ pos ∧ ∀ e ∈ db, isWaitingIn roomId e = true → e.position < pos) ∧
    (∀ (db : QueueDB) (roomId newId1 pid1 t1 newId2 pid2 t2 : Nat)
      (db1 : QueueDB) (p1 : Int) (db2 : QueueDB) (p2 : Int),
      requestCallHost db newId1 roomId pid1 t1 = Except.ok (db1, p1) →
      requestCallHost db1 newId2 roomId pid2 t2 = Except.ok (db2, p2) →
      p2 = p1 + 1) ∧
    (∀ (db : QueueDB) (newId roomId pid now : Nat) (db' : QueueDB) (pos : Int),
      requestCallHost db newId roomId pid now = Except.ok (db', pos) →
      (∀ e ∈ db, isWaitingIn roomId e = false) → pos = 1) := by
  refine ⟨?_, ?_, ?_⟩
  · intro db newId roomId pid now db' pos h
    obtain ⟨-, hpos, -⟩ := requestCallHost_ok_inv h
    subst hpos
    exact ⟨get_next_queue_position_pos db roomId,
      fun e he hw => position_lt_next he hw⟩
  · intro db roomId newId1 pid1 t1 newId2 pid2 t2 db1 p1 db2 p2 h1 h2
    obtain ⟨-, hp1, hdb1⟩ := requestCallHost_ok_inv h1
    obtain ⟨-, hp2, -⟩ := requestCallHost_ok_inv h2
    subst hdb1
    have hw1 : isWaitingIn roomId
        (⟨newId1, pid1, roomId, t1, get_next_queue_position db roomId,
          QStatus.waiting, none⟩ : QueueEntry) = true := by
      simp [isWaitingIn]
    have hwp : waitingPositions
        (db ++ [⟨newId1, pid1, roomId, t1, get_next_queue_position db roomId,
          QStatus.waiting, none⟩]) roomId =
        waitingPositions db roomId ++ [get_next_queue_position db roomId] := by
      rw [waitingPositions_append]
      unfold waitingPositions
      rw [List.filter_cons, if_pos hw1]
      rfl
    have hnn : (0 : Int) ≤ get_next_queue_position db roomId :=
      le_trans (by omega) (get_next_queue_position_pos db roomId)
    have hle : (waitingPositions db roomId).foldr max 0 ≤
        get_next_queue_position db roomId := by
      unfold get_next_queue_position
      omega
    rw [hp2, hp1]
    set p := get_next_queue_position db roomId with hp
    unfold get_next_queue_position
    rw [hwp, foldrMax_append_singleton _ hnn, max_eq_right hle]
  · intro db newId roomId pid now db' pos h hnone
    obtain ⟨-, hpos, -⟩ := requestCallHost_ok_inv h
    subst hpos
    unfold get_next_queue_position waitingPositions
    rw [List.filter_eq_nil_iff.mpr (by
      intro a ha
      simp [hnone a ha])]
    rfl

/-- C1 witness: on an empty table, a first request in room 7 returns
position 1 and a second request (first entry still waiting) returns
position 2 = 1 + 1; position 1 exceeds every waiting position of the empty
table and equals 1 as the room had no waiting entry. -/
theorem c1_positions_amended_witness :
    (1 : Int) ≤ 1 ∧
    (2 : Int) = 1 + 1 ∧
    (1 : Int) = 1 :=
  ⟨(c1_positions_amended.1 [] 1 7 100 0
      [⟨1, 100, 7, 0, 1, QStatus.waiting, none⟩] 1 rfl).1,
   c1_positions_amended.2.1 [] 7 1 100 0 2 101 3
      [⟨1, 100, 7, 0, 1, QStatus.waiting, none⟩] 1
      [⟨1, 100, 7, 0, 1, QStatus.waiting, none⟩,
       ⟨2, 101, 7, 3, 2, QStatus.waiting, none⟩] 2 rfl rfl,
   c1_positions_amended.2.2 [] 1 7 100 0
      [⟨1, 100, 7, 0, 1, QStatus.waiting, none⟩] 1 rfl (by
        intro e he
        cases he)⟩

/-- C1 counterexample: in room 7 a first request returns position 1; after
that entry is accepted (leaves `waiting`), the next request returns
position 1 again — the position is reused after removal and the returned
sequence (1, then 1) is not strictly increasing, contradicting the claim. -/
theorem c1_position_reuse_counterexample :
    requestCallHost [] 1 7 100 0 =
      Except.ok ([⟨1, 100, 7, 0, 1, QStatus.waiting, none⟩], 1) ∧
    resolveEntry [⟨1, 100, 7, 0, 1, QStatus.waiting, none⟩] 1
        Resolution.accept 5 =
      Except.ok [⟨1, 100, 7, 0, 1, QStatus.accepted, some 5⟩] ∧
    requestCallHost [⟨1, 100, 7, 0, 1, QStatus.accepted, some 5⟩] 2 7 101 6 =
      Except.ok ([⟨1, 100, 7, 0, 1, QStatus.accepted, some 5⟩,
                  ⟨2, 101, 7, 6, 1, QStatus.waiting, none⟩], 1) ∧
    ¬((1 : Int) < 1) := by
  refine ⟨rfl, rfl, rfl, by omega⟩

/-- C2: for an entry that is `waiting`, a serialized sequence of accept /
decline / expire attempts against it has exactly one success — the first
attempt — and every later attempt fails with `AlreadyResolved`; in
particular a double accept succeeds once, so the InterventionSession opened
on a successful accept is created exactly once. -/
theorem c2_single_resolution_wins (db : QueueDB) (entryId now : Nat)
    (e : QueueEntry) (r : Resolution) (rest : List Resolution)
    (hfind : getEntryById db entryId = some e)
    (hw : e.status = QStatus.waiting) :
    (runResolutions entryId now (r :: rest) db).2 =
      Except.ok r ::
        rest.map (fun _ => Except.error QueueError.AlreadyResolved) ∧
    ((runResolutions entryId now (r :: rest) db).2.countP outcomeIsSuccess)
      = 1 := by
  have hok := resolveEntry_of_waiting hfind hw r now
  have hfind2 : getEntryById (db.map (resolveRow entryId r now)) entryId =
      some (resolveRow entryId r now e) := by
    rw [getEntryById_map_resolveRow, hfind]
    rfl
  have heid0 := List.find?_some
    (show db.find? (fun x => x.id == entryId) = some e from hfind)
  have heid : (e.id == entryId) = true := by simpa using heid0
  have hnw : (resolveRow entryId r now e).status ≠ QStatus.waiting := by
    unfold resolveRow
    rw [if_pos heid, applyResolution_status]
    exact targetStatus_ne_waiting r
  have hrun := runResolutions_all_resolved now rest hfind2 hnw
  have hout : (runResolutions entryId now (r :: rest) db).2 =
      Except.ok r ::
        rest.map (fun _ => Except.error QueueError.AlreadyResolved) := by
    unfold runResolutions
    rw [hok]
    simp [hrun]
  refine ⟨hout, ?_⟩
  rw [hout]
  rw [List.countP_cons_of_pos _ _ (by rfl)]
  rw [List.countP_eq_zero.mpr (by
    intro o ho
    obtain ⟨-, -, rfl⟩ := List.mem_map.mp ho
    simp [outcomeIsSuccess])]

/-- C2 witness: a double accept on a waiting entry — the first succeeds,
the second returns `AlreadyResolved`, one success in total. -/
theorem c2_single_resolution_wins_witness :
    (runResolutions 1 5 [Resolution.accept, Resolution.accept]
        [⟨1, 100, 7, 0, 1, QStatus.waiting, none⟩]).2 =
      Except.ok Resolution.accept ::
        [Resolution.accept].map
          (fun _ => Except.error QueueError.AlreadyResolved) ∧
    ((runResolutions 1 5 [Resolution.accept, Resolution.accept]
        [⟨1, 100, 7, 0, 1, QStatus.waiting, none⟩]).2.countP outcomeIsSuccess)
      = 1 :=
  c2_single_resolution_wins [⟨1, 100, 7, 0, 1, QStatus.waiting, none⟩] 1 5
    ⟨1, 100, 7, 0, 1, QStatus.waiting, none⟩ Resolution.accept
    [Resolution.accept] rfl rfl

/-- C3: `requestCallHost` fails with `AlreadyQueued` whenever the
participant already has a `waiting` entry in that room; on success it
appends one fresh `waiting` entry whose position is the current maximum
waiting position of the room plus one (1 when the room has no waiting
entry), and it preserves the invariant that no participant has two
`waiting` entries in the same room. -/
theorem c3_already_queued (db : QueueDB) (newId roomId pid now : Nat) :
    (hasWaitingEntry db roomId pid = true →
      requestCallHost db newId roomId pid now =
        Except.error QueueError.AlreadyQueued) ∧
    (∀ (db' : QueueDB) (pos : Int),
      requestCallHost db newId roomId pid now = Except.ok (db', pos) →
      hasWaitingEntry db roomId pid = false ∧
      db' = db ++ [⟨newId, pid, roomId, now, pos, QStatus.waiting, none⟩] ∧
      ((∀ e ∈ db, isWaitingIn roomId e = false) → pos = 1) ∧
      (pos = 1 ∨
        ∃ e ∈ db, isWaitingIn roomId e = true ∧ e.position = pos - 1) ∧
      (∀ e ∈ db, isWaitingIn roomId e = true → e.position ≤ pos - 1) ∧
      (NoDupWaiting db → NoDupWaiting db')) := by
  constructor
  · intro hq
    unfold requestCallHost
    rw [if_pos hq]
  · intro db' pos h
    obtain ⟨hq, hpos, hdb'⟩ := requestCallHost_ok_inv h
    subst hpos
    refine ⟨hq, hdb', fun hnone => gnp_eq_one_of_no_waiting hnone,
      gnp_attained db roomId, ?_, ?_⟩
    · intro e he hw
      have := position_lt_next he hw
      omega
    · intro hd
      rw [hdb']
      exact noDupWaiting_append hq rfl rfl hd

/-- C3 witness: with participant 100 already waiting in room 7, a second
request by 100 returns `AlreadyQueued`; a first request on an empty table
preserves the no-duplicate-waiting invariant. -/
theorem c3_already_queued_witness :
    requestCallHost [⟨1, 100, 7, 0, 1, QStatus.waiting, none⟩] 2 7 100 9 =
      Except.error QueueError.AlreadyQueued ∧
    NoDupWaiting [⟨1, 100, 7, 0, 1, QStatus.waiting, none⟩] :=
  ⟨(c3_already_queued [⟨1, 100, 7, 0, 1, QStatus.waiting, none⟩] 2 7 100 9).1
      rfl,
   ((c3_already_queued [] 1 7 100 0).2
      [⟨1, 100, 7, 0, 1, QStatus.waiting, none⟩] 1 rfl).2.2.2.2.2
      List.Pairwise.nil⟩

/-- C4 (amended): queue operations never delete entries — a request only
appends, and a successful resolution keeps every row (same length, rows
with other ids unchanged) while the resolved entry stays retrievable by id
with its final status and acceptedAt — but an entry is NOT retained across
deletion of the room or participant it references: the schema's
`ON DELETE CASCADE` removes it (see the counterexample). -/
theorem c4_retention_amended :
    (∀ (db : QueueDB) (newId roomId pid now : Nat) (db' : QueueDB) (pos : Int),
      requestCallHost db newId roomId pid now = Except.ok (db', pos) →
      ∀ e ∈ db, e ∈ db') ∧
    (∀ (db : QueueDB) (entryId : Nat) (r : Resolution) (now : Nat)
      (db' : QueueDB),
      resolveEntry db entryId r now = Except.ok db' →
      db'.length = db.length ∧
      (∃ e, getEntryById db entryId = some e ∧
        getEntryById db' entryId = some (applyResolution r now e)) ∧
      (∀ e ∈ db, e.id ≠ entryId → e ∈ db')) ∧
    (∀ (db : QueueDB) (roomId : Nat) (e : QueueEntry), e ∈ db →
      e.room_id = roomId → e ∉ deleteRoomCascade db roomId) ∧
    (∀ (db : QueueDB) (pid : Nat) (e : QueueEntry), e ∈ db →
      e.participant_id = pid → e ∉ deleteParticipantCascade db pid) := by
  refine ⟨?_, ?_, ?_, ?_⟩
  · intro db newId roomId pid now db' pos h e he
    obtain ⟨-, -, hdb'⟩ := requestCallHost_ok_inv h
    rw [hdb']
    exact List.mem_append_left _ he
  · intro db entryId r now db' h
    obtain ⟨e, hfind, hw, hdb'⟩ := resolveEntry_ok_inv h
    subst hdb'
    have heid0 := List.find?_some
      (show db.find? (fun x => x.id == entryId) = some e from hfind)
    have heid : (e.id == entryId) = true := by simpa using heid0
    refine ⟨List.length_map _ _, ⟨e, hfind, ?_⟩, ?_⟩
    · rw [getEntryById_map_resolveRow, hfind]
      simp [resolveRow, heid]
    · intro x hx hne
      have hxr : resolveRow entryId r now x = x := resolveRow_of_ne r now hne
      exact hxr ▸ List.mem_map_of_mem _ hx
  · intro db roomId e he hroom habs
    have := (List.mem_filter.mp habs).2
    simp [hroom] at this
  · intro db pid e he hpid habs
    have := (List.mem_filter.mp habs).2
    simp [hpid] at this

/-- C4 witness: a request after an accepted entry keeps the old entry; a
resolution keeps the table length; an entry of room 7 is not retained by
the room-7 cascade delete. -/
theorem c4_retention_amended_witness :
    (⟨1, 100, 7, 0, 1, QStatus.accepted, some 5⟩ : QueueEntry) ∈
      ([⟨1, 100, 7, 0, 1, QStatus.accepted, some 5⟩] ++
        [⟨2, 101, 7, 6, 1, QStatus.waiting, none⟩] : QueueDB) ∧
    (([⟨1, 100, 7, 0, 1, QStatus.waiting, none⟩] : QueueDB).map
        (resolveRow 1 Resolution.accept 5)).length =
      ([⟨1, 100, 7, 0, 1, QStatus.waiting, none⟩] : QueueDB).length ∧
    (⟨1, 100, 7, 0, 1, QStatus.waiting, none⟩ : QueueEntry) ∉
      deleteRoomCascade [⟨1, 100, 7, 0, 1, QStatus.waiting, none⟩] 7 :=
  ⟨c4_retention_amended.1 [⟨1, 100, 7, 0, 1, QStatus.accepted, some 5⟩]
      2 7 101 6
      ([⟨1, 100, 7, 0, 1, QStatus.accepted, some 5⟩] ++
        [⟨2, 101, 7, 6, 1, QStatus.waiting, none⟩]) 1 (by rfl)
      ⟨1, 100, 7, 0, 1, QStatus.accepted, some 5⟩ (by decide),
   (c4_retention_amended.2.1 [⟨1, 100, 7, 0, 1, QStatus.waiting, none⟩] 1
      Resolution.accept 5
      (([⟨1, 100, 7, 0, 1, QStatus.waiting, none⟩] : QueueDB).map
        (resolveRow 1 Resolution.accept 5)) rfl).1,
   c4_retention_amended.2.2.1 [⟨1, 100, 7, 0, 1, QStatus.waiting, none⟩] 7
      ⟨1, 100, 7, 0, 1, QStatus.waiting, none⟩ (by decide) rfl⟩

/-- C4 counterexample: the entry with id 1 in room 7 is retrievable by id,
but after the room is deleted (the schema cascade) it is gone — entries are
not retained regardless of room deletion, contradicting the claim. -/
theorem c4_cascade_counterexample :
    getEntryById [⟨1, 100, 7, 0, 1, QStatus.waiting, none⟩] 1 =
      some ⟨1, 100, 7, 0, 1, QStatus.waiting, none⟩ ∧
    getEntryById
      (deleteRoomCascade [⟨1, 100, 7, 0, 1, QStatus.waiting, none⟩] 7) 1 =
      none :=
  ⟨rfl, rfl⟩

/-- C5: a successful resolution (accept, decline or expire) leaves the
stored position of every row unchanged — the table keeps its length, every
row keeps its id and position (including the resolved row), and every row
whose id differs from the resolved id is entirely unchanged; only the
derived rank among remaining waiting entries can change. -/
theorem c5_positions_stable (db : QueueDB) (entryId : Nat) (r : Resolution)
    (now : Nat) (db' : QueueDB)
    (h : resolveEntry db entryId r now = Except.ok db') :
    db'.length = db.length ∧
    ∀ i (hi : i < db.length),
      ∃ hi' : i < db'.length,
        (db'.get ⟨i, hi'⟩).position = (db.get ⟨i, hi⟩).position ∧
        (db'.get ⟨i, hi'⟩).id = (db.get ⟨i, hi⟩).id ∧
        ((db.get ⟨i, hi⟩).id ≠ entryId → db'.get ⟨i, hi'⟩ = db.get ⟨i, hi⟩) := by
  obtain ⟨e, hfind, hw, hdb'⟩ := resolveEntry_ok_inv h
  subst hdb'
  refine ⟨List.length_map _ _, ?_⟩
  intro i hi
  refine ⟨by simpa using hi, ?_⟩
  have hget : (db.map (resolveRow entryId r now)).get ⟨i, by simpa using hi⟩ =
      resolveRow entryId r now (db.get ⟨i, hi⟩) := by
    simp [List.get_eq_getElem]
  rw [hget]
  exact ⟨resolveRow_position _ _ _ _, resolveRow_id _ _ _ _,
    fun hne => resolveRow_of_ne r now hne⟩

/-- C5 witness: accepting entry 1 in a two-entry table keeps the table
length (and hence, by the theorem, every stored position). -/
theorem c5_positions_stable_witness :
    (([⟨1, 100, 7, 0, 1, QStatus.waiting, none⟩,
       ⟨2, 101, 7, 3, 2, QStatus.waiting, none⟩] : QueueDB).map
      (resolveRow 1 Resolution.accept 5)).length =
    ([⟨1, 100, 7, 0, 1, QStatus.waiting, none⟩,
      ⟨2, 101, 7, 3, 2, QStatus.waiting, none⟩] : QueueDB).length :=
  (c5_positions_stable
    [⟨1, 100, 7, 0, 1, QStatus.waiting, none⟩,
     ⟨2, 101, 7, 3, 2, QStatus.waiting, none⟩] 1 Resolution.accept 5
    (([⟨1, 100, 7, 0, 1, QStatus.waiting, none⟩,
       ⟨2, 101, 7, 3, 2, QStatus.waiting, none⟩] : QueueDB).map
      (resolveRow 1 Resolution.accept 5)) rfl).1

/-- C6 (amended): reconnection uses bounded exponential backoff — a
reconnect is only scheduled while the attempt counter is below the cap of
5, and the delay doubles per attempt up to the 30000 ms ceiling — but upon
reconnecting the client does NOT re-fetch the queue: the page's `onOpen`
callback leaves its state untouched (see the counterexample), and the host
page reloads the queue only when a later `queue_update` push arrives (or on
manual refresh). -/
theorem c6_reconnect_amended :
    (∀ (s : WebSocketClientState) (code : Nat),
      willReconnect s code = true →
        s.reconnectAttempts < maxReconnectAttempts) ∧
    (∀ n : Nat, reconnectDelayFor n ≤ 30000) ∧
    (∀ n : Nat, 1 ≤ n → n < maxReconnectAttempts →
      reconnectDelayFor (n + 1) = 2 * reconnectDelayFor n) ∧
    (∀ s : QueuePageState, handleHostEvent s HostSocketEvent.opened = s) ∧
    (∀ (s : QueuePageState) (m : HostWsMessage), m.type = "queue_update" →
      (handleHostMessage s m).fetchCount = s.fetchCount + 1) := by
  refine ⟨?_, ?_, ?_, ?_, ?_⟩
  · intro s code h
    simp [willReconnect, Bool.and_eq_true, decide_eq_true_eq] at h
    exact h.1.2
  · intro n
    exact min_le_right _ _
  · intro n h1 h5
    have h5' : n < 5 := h5
    interval_cases n <;> decide
  · intro s
    rfl
  · intro s m hm
    unfold handleHostMessage
    rw [if_pos (by simp [hm])]

/-- C6 witness: a client state with 2 used attempts is below the cap of 5,
the delay before attempt 3 is at most 30000 ms and double the delay before
attempt 2, the page state is untouched by the socket-open event, and the
fetch counter increments on a queue_update push. -/
theorem c6_reconnect_amended_witness :
    (2 : Nat) < maxReconnectAttempts ∧
    reconnectDelayFor 3 ≤ 30000 ∧
    reconnectDelayFor 3 = 2 * reconnectDelayFor 2 ∧
    handleHostEvent ⟨4, none⟩ HostSocketEvent.opened = (⟨4, none⟩ : QueuePageState) ∧
    (handleHostMessage ⟨4, none⟩
      ⟨ queueUpdateType, newAction, some ⟨9, 2⟩⟩).fetchCount = 5 :=
  ⟨c6_reconnect_amended.1 ⟨none, true, 2, []⟩ 1006 (by decide),
   c6_reconnect_amended.2.1 3,
   c6_reconnect_amended.2.2.1 2 (by decide) (by decide),
   c6_reconnect_amended.2.2.2.1 ⟨4, none⟩,
   c6_reconnect_amended.2.2.2.2 ⟨4, none⟩
     ⟨ queueUpdateType, newAction, some ⟨9, 2⟩⟩ rfl⟩

/-- C6 counterexample: the claim requires the peer to re-fetch the queue
upon reconnecting; but the socket-open event leaves the page state (and in
particular its fetch counter) unchanged — no re-fetch is issued, so a host
that missed pushes while disconnected does not see them on reconnect. -/
theorem c6_no_resync_counterexample :
    (handleHostEvent ⟨0, none⟩ HostSocketEvent.opened).fetchCount = 0 ∧
    ¬((handleHostEvent ⟨0, none⟩ HostSocketEvent.opened).fetchCount = 0 + 1) :=
  ⟨rfl, by decide⟩

/-- C7: `listWaiting` returns exactly the entries of the room whose status
is `waiting` — never an entry in any other status — sorted ascending by
their stored position. -/
theorem c7_listWaiting (db : QueueDB) (roomId : Nat) :
    (∀ e : QueueEntry, e ∈ listWaiting db roomId ↔
      e ∈ db ∧ e.status = QStatus.waiting ∧ e.room_id = roomId) ∧
    List.Sorted entryPosLE (listWaiting db roomId) := by
  constructor
  · intro e
    unfold listWaiting
    rw [List.mem_insertionSort, List.mem_filter]
    unfold isWaitingIn
    simp only [Bool.and_eq_true, beq_iff_eq]
    tauto
  · exact List.sorted_insertionSort entryPosLE _

/-- C7 witness: in a table holding one accepted and one waiting entry of
room 7, the waiting entry is listed. -/
theorem c7_listWaiting_witness :
    (⟨2, 101, 7, 3, 2, QStatus.waiting, none⟩ : QueueEntry) ∈
      listWaiting [⟨1, 100, 7, 0, 1, QStatus.accepted, some 5⟩,
                   ⟨2, 101, 7, 3, 2, QStatus.waiting, none⟩] 7 :=
  ((c7_listWaiting
      [⟨1, 100, 7, 0, 1, QStatus.accepted, some 5⟩,
       ⟨2, 101, 7, 3, 2, QStatus.waiting, none⟩] 7).1
    ⟨2, 101, 7, 3, 2, QStatus.waiting, none⟩).mpr ⟨by decide, rfl, rfl⟩

/-- C8: the popup countdown starts at 30, decreases by exactly 1 per tick
while positive, never goes below 0 and stays at 0; at countdown 0 the
Accept and Decline buttons are disabled, so no accept or decline request
can be issued through the popup after the countdown has expired. -/
theorem c8_countdown_gate :
    countdownAfter 0 = 30 ∧
    (∀ n : Nat, 1 ≤ countdownAfter n →
      countdownAfter (n + 1) = countdownAfter n - 1) ∧
    (∀ n : Nat, 0 ≤ countdownAfter n) ∧
    (∀ n : Nat, countdownAfter n = 0 → countdownAfter (n + 1) = 0) ∧
    (∀ (p : Bool) (c : Int), c = 0 → popupButtonsDisabled p c = true) ∧
    (∀ p : Bool, popupCanIssueRequest p 0 = false) := by
  refine ⟨rfl, ?_, ?_, ?_, ?_, ?_⟩
  · intro n h
    show countdownTick (countdownAfter n) = countdownAfter n - 1
    unfold countdownTick
    split
    · omega
    · rfl
  · intro n
    induction n with
    | zero => decide
    | succ n ih =>
      show 0 ≤ countdownTick (countdownAfter n)
      unfold countdownTick
      split
      · exact le_refl 0
      · omega
  · intro n h
    show countdownTick (countdownAfter n) = 0
    rw [h]
    decide
  · intro p c hc
    subst hc
    unfold popupButtonsDisabled
    simp
  · intro p
    unfold popupCanIssueRequest popupButtonsDisabled
    simp

/-- C8 witness: after one tick the countdown is 29 = 30 - 1; it is still
nonnegative after 40 ticks; at 0 the buttons are disabled and no request
can be issued. -/
theorem c8_countdown_gate_witness :
    countdownAfter 0 = 30 ∧
    countdownAfter 1 = countdownAfter 0 - 1 ∧
    (0 : Int) ≤ countdownAfter 40 ∧
    popupButtonsDisabled false 0 = true ∧
    popupCanIssueRequest true 0 = false :=
  ⟨c8_countdown_gate.1,
   c8_countdown_gate.2.1 0 (by decide),
   c8_countdown_gate.2.2.1 40,
   c8_countdown_gate.2.2.2.2.1 false 0 rfl,
   c8_countdown_gate.2.2.2.2.2 true⟩

/-- C9: the Queue page renders the new-request popup only for a queue item
whose stored position equals 1 — for any item with a different position
(in particular any position greater than 1) no popup is rendered, whatever
path set the pending notification. -/
theorem c9_popup_only_position_one :
    (∀ item : QueueItem, item.position ≠ 1 →
      queuePopupRendered (some item) = false) ∧
    (∀ popupItem : Option QueueItem, queuePopupRendered popupItem = true →
      ∃ item, popupItem = some item ∧ item.position = 1) := by
  constructor
  · intro item h
    unfold queuePopupRendered
    simp [h]
  · intro popupItem h
    cases popupItem with
    | none => simp [queuePopupRendered] at h
    | some item =>
      refine ⟨item, rfl, ?_⟩
      unfold queuePopupRendered at h
      simpa using h

/-- C9 witness: a queue item with stored position 2 — even if it is the
pending notification — is never rendered as a popup. -/
theorem c9_popup_only_position_one_witness :
    queuePopupRendered (some ⟨5, 2⟩) = false :=
  c9_popup_only_position_one.1 ⟨5, 2⟩ (by decide)

/-- C10: `send` on a socket that is not OPEN is a silent no-op — the client
state (including the list of delivered payloads) is unchanged and nothing
is queued — and after `disconnect()` (normal closure, code 1000) the close
handler never schedules a reconnect, whatever close code it observes. -/
theorem c10_send_noop_and_disconnect_final :
    (∀ (s : WebSocketClientState) (data : String),
      s.ws ≠ some ReadyState.OPEN → WebSocketClientState.send s data = s) ∧
    (∀ (s : WebSocketClientState) (code : Nat),
      willReconnect (WebSocketClientState.disconnect s) code = false) := by
  constructor
  · intro s data h
    unfold WebSocketClientState.send
    split
    · rename_i heq
      exact absurd heq h
    · rfl
  · intro s code
    simp [willReconnect, WebSocketClientState.disconnect]

/-- C10 witness: sending on a CLOSED socket changes nothing, and after
disconnect no reconnect happens even for an abnormal close code. -/
theorem c10_send_noop_witness :
    WebSocketClientState.send ⟨some ReadyState.CLOSED, true, 0, []⟩
        pingPayload =
      (⟨some ReadyState.CLOSED, true, 0, []⟩ : WebSocketClientState) ∧
    willReconnect
      (WebSocketClientState.disconnect ⟨some ReadyState.OPEN, true, 0, []⟩)
      1006 = false :=
  ⟨c10_send_noop_and_disconnect_final.1 ⟨some ReadyState.CLOSED, true, 0, []⟩
      pingPayload (by decide),
   c10_send_noop_and_disconnect_final.2 ⟨some ReadyState.OPEN, true, 0, []⟩
      1006⟩

end Sia
